/-
Verification of the image-locker password-based encryption workers.

Source under verification:
 - src/cryptoWorker.js (lines 1-69): the simple crypto worker ("SimpleWorker" below).
 - src/unnamed/part_000: the production crypto worker ("ProdWorker" below).

Modelling conventions (shallow embedding):
 - Byte sequences are lists of naturals.  The Web Crypto platform primitives
   (crypto.subtle PBKDF2 / AES-GCM, TextEncoder, getRandomValues) are not part
   of the repository; they are modelled as an ideal key-derivation function and
   an ideal authenticated cipher:
     * a derived key is a record of the exact parameters the source passes to
       crypto.subtle.importKey / deriveKey, together with the key material
       identity (UTF-8 password bytes, salt);
     * AES-GCM encryption produces a keystream-masked body followed by a
       16-cell authentication tag whose first cell is an injective fingerprint
       of (key, iv, body) - the ideal model of a perfect 128-bit tag.  In this
       idealisation the tag cell is an unbounded natural rather than a byte,
       and the Uint8Array copies performed by the source are modelled as the
       identity on lists.
     * getRandomValues draws are modelled as explicit parameters (salt, iv) of
       the functions that perform them; Date.now() as an explicit `now`.
 - JavaScript truthiness is modelled where the source relies on it: a missing
   field is `none`, an empty string is falsy, arrays and buffers are truthy
   even when empty.  String `.length` in JavaScript counts UTF-16 code units,
   modelled by `jsLength`.
 - Every engine/boundary function additionally returns the list of
   cryptographic primitive invocations it performed (importKey, deriveKey,
   encrypt, decrypt), used to state the "no cryptographic call attempted"
   clauses.  The production worker's diagnostic `metrics` field on responses
   (wall-clock timings from performance.now()) is elided.
-/
import Mathlib

set_option maxHeartbeats 1000000

/-- UTF-8 encoding of a single character (the platform TextEncoder model). -/
def utf8EncodeChar (c : Char) : List Nat :=
  if c.toNat < 128 then [c.toNat]
  else if c.toNat < 2048 then [192 + c.toNat / 64, 128 + c.toNat % 64]
  else if c.toNat < 65536 then
    [224 + c.toNat / 4096, 128 + c.toNat / 64 % 64, 128 + c.toNat % 64]
  else
    [240 + c.toNat / 262144, 128 + c.toNat / 4096 % 64, 128 + c.toNat / 64 % 64,
     128 + c.toNat % 64]

/-- UTF-8 encoding of a character list. -/
def utf8EncodeList : List Char → List Nat
  | [] => []
  | c :: cs => utf8EncodeChar c ++ utf8EncodeList cs

/-- UTF-8 encoding of a string: the model of `new TextEncoder().encode(s)`. -/
def utf8Encode (s : String) : List Nat := utf8EncodeList s.data

/-- Number of UTF-16 code units of a character: JavaScript's unit of string length. -/
def jsCharUnits (c : Char) : Nat := if c.toNat < 65536 then 1 else 2

/-- Auxiliary sum of UTF-16 code units over a character list. -/
def jsLenAux : List Char → Nat
  | [] => 0
  | c :: cs => jsCharUnits c + jsLenAux cs

/-- JavaScript `s.length`: the number of UTF-16 code units of `s`. -/
def jsLength (s : String) : Nat := jsLenAux s.data

/-- JavaScript truthiness of an optional string field: absent and empty are falsy. -/
def jsTruthyStr : Option String → Bool
  | none => false
  | some s => !s.isEmpty

/-- Injective encoding of a byte list into a natural (for the ideal tag fingerprint). -/
def encodeList : List Nat → Nat
  | [] => 0
  | a :: l => Nat.pair a (encodeList l) + 1

/-- Derived key: records exactly what the source passes to crypto.subtle.importKey and
crypto.subtle.deriveKey, plus the key-material identity (password bytes and salt) of the
ideal key-derivation function. -/
structure DerivedKey where
  kdfName : String
  hash : String
  iterations : Nat
  algName : String
  length : Nat
  extractable : Bool
  usages : List String
  pwBytes : List Nat
  salt : List Nat
  deriving DecidableEq, Repr

/-- Injective fingerprint of the key material of a derived key. -/
def encodeKey (k : DerivedKey) : Nat := Nat.pair (encodeList k.pwBytes) (encodeList k.salt)

/-- Keystream cell `i` of the ideal cipher for a given key and iv. -/
def streamCell (k : DerivedKey) (iv : List Nat) (i : Nat) : Nat :=
  Nat.pair (encodeKey k) (Nat.pair (encodeList iv) i) % 256

/-- Mask a byte list with the ideal keystream starting at position `i`. -/
def xorStream (k : DerivedKey) (iv : List Nat) : Nat → List Nat → List Nat
  | _, [] => []
  | i, b :: rest => (b ^^^ streamCell k iv i) :: xorStream k iv (i + 1) rest

/-- Ideal 16-cell authentication tag over (key, iv, ciphertext body): the first cell is
an injective fingerprint, the model of a perfect 128-bit GCM tag. -/
def gcmTag (k : DerivedKey) (iv : List Nat) (body : List Nat) : List Nat :=
  Nat.pair (encodeKey k) (Nat.pair (encodeList iv) (encodeList body)) :: List.replicate 15 0

/-- Failure kinds of the platform's crypto.subtle operations relevant here: AES-GCM
decryption rejects with an OperationError on authentication failure. -/
inductive CryptoErr where
  | OperationError
  deriving DecidableEq, Repr

/-- Ideal model of crypto.subtle.encrypt with AES-GCM: keystream-masked plaintext
followed by the 16-cell authentication tag. -/
def gcmEncrypt (k : DerivedKey) (iv : List Nat) (pt : List Nat) : List Nat :=
  let body := xorStream k iv 0 pt
  body ++ gcmTag k iv body

/-- Ideal model of crypto.subtle.decrypt with AES-GCM: split off the 16-cell tag,
verify it over the body, and unmask; reject with OperationError otherwise. -/
def gcmDecrypt (k : DerivedKey) (iv : List Nat) (ct : List Nat) : Except CryptoErr (List Nat) :=
  if ct.length < 16 then .error .OperationError
  else
    let body := ct.take (ct.length - 16)
    let tag := ct.drop (ct.length - 16)
    if tag = gcmTag k iv body then .ok (xorStream k iv 0 body) else .error .OperationError

/-- Cryptographic primitive invocations, recorded to state "no crypto call attempted". -/
inductive CryptoCall where
  | importKey
  | deriveKeyOp
  | encryptOp
  | decryptOp
  deriving DecidableEq, Repr

/-- Flip bit `k` of cell `j` of a byte list (out-of-range `j` leaves the list unchanged). -/
def flipBit (l : List Nat) (j k : Nat) : List Nat :=
  l.set j (l.getD j 0 ^^^ 2 ^ k)

/-- Encrypted payload as built by the workers: salt, iv, ciphertext (with tag), and the
optional metadata fields (mimeType added at the boundary; version and timestamp only by
the production worker). -/
structure EncryptedPayload where
  salt : List Nat
  iv : List Nat
  encryptedData : List Nat
  mimeType : Option String := none
  version : Option String := none
  timestamp : Option Nat := none
  deriving DecidableEq, Repr

/-- Payload as received by a decryption request: every field may be absent. -/
structure PayloadInput where
  salt : Option (List Nat) := none
  iv : Option (List Nat) := none
  encryptedData : Option (List Nat) := none
  deriving DecidableEq, Repr

/-- View of a produced payload as a decryption input. -/
def payloadInput (p : EncryptedPayload) : PayloadInput :=
  { salt := some p.salt, iv := some p.iv, encryptedData := some p.encryptedData }

/-- Task data of an incoming worker message: the union of the fields the encrypt and
decrypt branches read, each possibly absent. -/
structure InData where
  imageData : Option (List Nat) := none
  password : Option String := none
  mimeType : Option String := none
  encryptedData : Option PayloadInput := none
  deriving DecidableEq, Repr

/-- Incoming worker message `e.data`: an `action` field (present as a string or not)
and a `data` field (present or falsy). -/
structure InMessage where
  action : Option String := none
  data : Option InData := none
  deriving DecidableEq, Repr

/-- Result carried by a successful worker response. -/
inductive WorkerResult where
  | payload (p : EncryptedPayload)
  | bytes (b : List Nat)
  deriving DecidableEq, Repr

/-- Outgoing worker message posted by self.postMessage. -/
structure OutMessage where
  success : Bool
  result : Option WorkerResult := none
  error : Option String := none
  deriving DecidableEq, Repr

/-- Successful response message. -/
def okOut (r : WorkerResult) : OutMessage := { success := true, result := some r }

/-- Failure response message. -/
def errOut (e : String) : OutMessage := { success := false, error := some e }

namespace SimpleWorker

/-- Key derivation of src/cryptoWorker.js lines 27-42: PBKDF2 over the UTF-8 password
bytes and the salt, SHA-256, 250000 iterations, yielding a non-extractable 256-bit
AES-GCM key usable for encrypt and decrypt only. -/
def deriveKey (password : String) (salt : List Nat) : DerivedKey :=
  { kdfName := "PBKDF2"
    hash := "SHA-256"
    iterations := 250000
    algName := "AES-GCM"
    length := 256
    extractable := false
    usages := ["encrypt", "decrypt"]
    pwBytes := utf8Encode password
    salt := salt }

/-- Payload built by the success path of encryptImage. -/
def encPayload (buffer : List Nat) (password : String) (salt iv : List Nat) :
    EncryptedPayload :=
  { salt := salt, iv := iv, encryptedData := gcmEncrypt (deriveKey password salt) iv buffer }

/-- encryptImage of src/cryptoWorker.js lines 44-52.  The two getRandomValues draws are
the parameters `salt` and `iv`.  The guard `!buffer || !password` can only fire on the
password: an ArrayBuffer is truthy even when empty, an empty string is falsy. -/
def encryptImage (buffer : List Nat) (password : String) (salt iv : List Nat) :
    Except String EncryptedPayload × List CryptoCall :=
  if password = "" then (.error "Datos de imagen o contraseña faltantes", [])
  else
    (.ok (encPayload buffer password salt iv),
     [.importKey, .deriveKeyOp, .encryptOp])

/-- decryptImage of src/cryptoWorker.js lines 54-69: the try/catch collapses every
failure (missing fields, empty password, authentication failure) into the single
outward error message. -/
def decryptImage (data : PayloadInput) (password : String) :
    Except String (List Nat) × List CryptoCall :=
  match data.salt, data.iv, data.encryptedData with
  | some salt, some iv, some encrypted =>
    if password = "" then (.error "Contraseña incorrecta o archivo dañado", [])
    else
      match gcmDecrypt (deriveKey password salt) iv encrypted with
      | .ok plain => (.ok plain, [.importKey, .deriveKeyOp, .decryptOp])
      | .error _ =>
        (.error "Contraseña incorrecta o archivo dañado", [.importKey, .deriveKeyOp, .decryptOp])
  | _, _, _ => (.error "Contraseña incorrecta o archivo dañado", [])

/-- Message handler of src/cryptoWorker.js lines 2-25.  The destructuring of `e.data`
happens before the try block: a null or undefined `e.data` (the `none` case) throws
outside the handler's try/catch and no response is posted.  For any object `e.data`
the handler posts exactly one response. -/
def onmessage (salt iv : List Nat) (edata : Option InMessage) :
    List OutMessage × List CryptoCall :=
  match edata with
  | none => ([], [])
  | some msg =>
    match msg.data, msg.action with
    | some d, some action =>
      if action = "encrypt" then
        match d.imageData, d.password with
        | some buffer, some pw =>
          if jsLength pw < 6 then
            ([errOut "Datos o contraseña inválidos para encriptar"], [])
          else
            match encryptImage buffer pw salt iv with
            | (.ok res, tr) =>
              let res' := if jsTruthyStr d.mimeType then { res with mimeType := d.mimeType }
                          else res
              ([okOut (.payload res')], tr)
            | (.error e, tr) => ([errOut e], tr)
        | _, _ => ([errOut "Datos o contraseña inválidos para encriptar"], [])
      else if action = "decrypt" then
        match d.encryptedData, d.password with
        | some payload, some pw =>
          if jsLength pw < 1 then
            ([errOut "Datos o contraseña inválidos para desencriptar"], [])
          else
            match decryptImage payload pw with
            | (.ok b, tr) => ([okOut (.bytes b)], tr)
            | (.error e, tr) => ([errOut e], tr)
        | _, _ => ([errOut "Datos o contraseña inválidos para desencriptar"], [])
      else ([errOut "Acción no reconocida"], [])
    | _, _ => ([errOut "Datos de entrada inválidos"], [])

end SimpleWorker

namespace ProdWorker

/-- WORKER_CONFIG.MAX_FILE_SIZE of src/unnamed/part_000 line 8. -/
def MAX_FILE_SIZE : Nat := 50 * 1024 * 1024

/-- WORKER_CONFIG.MIN_PASSWORD_LENGTH of src/unnamed/part_000 line 9. -/
def MIN_PASSWORD_LENGTH : Nat := 6

/-- WORKER_CONFIG.PBKDF2_ITERATIONS of src/unnamed/part_000 line 10. -/
def PBKDF2_ITERATIONS : Nat := 250000

/-- WORKER_CONFIG.SALT_LENGTH of src/unnamed/part_000 line 11. -/
def SALT_LENGTH : Nat := 16

/-- WORKER_CONFIG.IV_LENGTH of src/unnamed/part_000 line 12. -/
def IV_LENGTH : Nat := 12

/-- validateEncryptedDataStructure of src/unnamed/part_000 lines 155-166: the three
fields must be arrays (absent fields are not), salt of length 16, iv of length 12,
encryptedData non-empty. -/
def validateEncryptedDataStructure (data : PayloadInput) : Bool :=
  match data.salt, data.iv, data.encryptedData with
  | some s, some iv, some ed =>
    s.length == SALT_LENGTH && iv.length == IV_LENGTH && ed.length > 0
  | _, _, _ => false

/-- deriveKey of src/unnamed/part_000 lines 171-216: same PBKDF2 parameters as the
simple worker, read from WORKER_CONFIG.  The input guard rejects a falsy password
(empty string); its catch replaces any failure message by the key-derivation error. -/
def deriveKeyE (password : String) (salt : List Nat) : Except String DerivedKey :=
  if password = "" then .error "Error en derivación de clave"
  else
    .ok
      { kdfName := "PBKDF2"
        hash := "SHA-256"
        iterations := PBKDF2_ITERATIONS
        algName := "AES-GCM"
        length := 256
        extractable := false
        usages := ["encrypt", "decrypt"]
        pwBytes := utf8Encode password
        salt := salt }

/-- Payload built by the success path of the production encryptImage: adds the
timestamp (Date.now(), the parameter `now`) and the version tag. -/
def encPayload (buffer : List Nat) (password : String) (salt iv : List Nat) (now : Nat) :
    EncryptedPayload :=
  match deriveKeyE password salt with
  | .ok key =>
    { salt := salt, iv := iv, encryptedData := gcmEncrypt key iv buffer
      timestamp := some now, version := some "1.0.0" }
  | .error _ => { salt := salt, iv := iv, encryptedData := [] }

/-- encryptImage of src/unnamed/part_000 lines 221-259.  Its catch wraps every inner
failure (falsy password, key-derivation failure) into the single encryption error. -/
def encryptImage (buffer : List Nat) (password : String) (salt iv : List Nat) (now : Nat) :
    Except String EncryptedPayload × List CryptoCall :=
  if password = "" then (.error "Error durante la encriptación", [])
  else
    match deriveKeyE password salt with
    | .error _ => (.error "Error durante la encriptación", [])
    | .ok _ =>
      (.ok (encPayload buffer password salt iv now), [.importKey, .deriveKeyOp, .encryptOp])

/-- decryptImage of src/unnamed/part_000 lines 264-302.  An AES-GCM authentication
failure is an OperationError and surfaces as the wrong-password-or-damaged-file
message; every other inner throw (missing fields, falsy password, key-derivation
failure) has name Error and surfaces as the generic decryption error. -/
def decryptImage (data : PayloadInput) (password : String) :
    Except String (List Nat) × List CryptoCall :=
  match data.salt, data.iv, data.encryptedData with
  | some salt, some iv, some encrypted =>
    if password = "" then (.error "Error durante la desencriptación", [])
    else
      match deriveKeyE password salt with
      | .error _ => (.error "Error durante la desencriptación", [])
      | .ok key =>
        match gcmDecrypt key iv encrypted with
        | .ok plain => (.ok plain, [.importKey, .deriveKeyOp, .decryptOp])
        | .error .OperationError =>
          (.error "Contraseña incorrecta o archivo dañado",
           [.importKey, .deriveKeyOp, .decryptOp])
  | _, _, _ => (.error "Error durante la desencriptación", [])

/-- handleEncryption of src/unnamed/part_000 lines 88-122: validates presence and type
of the fields, the minimum password length, the maximum and minimum file size, then
encrypts and attaches a truthy mimeType; its catch prefixes every failure message. -/
def handleEncryption (data : InData) (salt iv : List Nat) (now : Nat) :
    Except String EncryptedPayload × List CryptoCall :=
  match data.imageData, data.password with
  | some buffer, some pw =>
    if pw = "" then (.error "Error en encriptación: Datos de imagen o contraseña faltantes", [])
    else if jsLength pw < MIN_PASSWORD_LENGTH then
      (.error ("Error en encriptación: Contraseña debe tener al menos "
        ++ toString MIN_PASSWORD_LENGTH ++ " caracteres"), [])
    else if buffer.length > MAX_FILE_SIZE then
      (.error "Error en encriptación: El archivo es demasiado grande para procesar", [])
    else if buffer.length = 0 then
      (.error "Error en encriptación: El archivo está vacío", [])
    else
      match encryptImage buffer pw salt iv now with
      | (.ok res, tr) =>
        (.ok (if jsTruthyStr data.mimeType then { res with mimeType := data.mimeType } else res),
         tr)
      | (.error e, tr) => (.error ("Error en encriptación: " ++ e), tr)
  | _, _ => (.error "Error en encriptación: Datos de imagen o contraseña faltantes", [])

/-- handleDecryption of src/unnamed/part_000 lines 127-150: validates presence and type
of the fields, then the payload structure, then decrypts; its catch prefixes every
failure message. -/
def handleDecryption (data : InData) : Except String (List Nat) × List CryptoCall :=
  match data.encryptedData, data.password with
  | some payload, some pw =>
    if pw = "" then
      (.error "Error en desencriptación: Datos encriptados o contraseña faltantes", [])
    else if jsLength pw < 1 then
      (.error "Error en desencriptación: Contraseña requerida para desencriptar", [])
    else if !validateEncryptedDataStructure payload then
      (.error "Error en desencriptación: Estructura de datos encriptados inválida", [])
    else
      match decryptImage payload pw with
      | (.ok b, tr) => (.ok b, tr)
      | (.error e, tr) => (.error ("Error en desencriptación: " ++ e), tr)
  | _, _ => (.error "Error en desencriptación: Datos encriptados o contraseña faltantes", [])

/-- Message handler of src/unnamed/part_000 lines 24-83: the whole body, including the
check that `e.data` is an object (the `none` case), runs inside the try/catch, so every
incoming message gets exactly one response. -/
def onmessage (salt iv : List Nat) (now : Nat) (edata : Option InMessage) :
    List OutMessage × List CryptoCall :=
  match edata with
  | none => ([errOut "Estructura de mensaje inválida"], [])
  | some msg =>
    match msg.data, msg.action with
    | some d, some action =>
      if action = "encrypt" then
        match handleEncryption d salt iv now with
        | (.ok res, tr) => ([okOut (.payload res)], tr)
        | (.error e, tr) => ([errOut e], tr)
      else if action = "decrypt" then
        match handleDecryption d with
        | (.ok b, tr) => ([okOut (.bytes b)], tr)
        | (.error e, tr) => ([errOut e], tr)
      else ([errOut ("Acción no reconocida: " ++ action)], [])
    | _, _ => ([errOut "Datos de entrada inválidos"], [])

end ProdWorker

/-- Auxiliary: the byte-list fingerprint encoding is injective. -/
theorem encodeList_injective : ∀ {l₁ l₂ : List Nat}, encodeList l₁ = encodeList l₂ → l₁ = l₂
  | [], [], _ => rfl
  | [], _ :: _, h => by simp [encodeList] at h
  | _ :: _, [], h => by simp [encodeList] at h
  | a :: l, b :: m, h => by
    simp only [encodeList, Nat.add_right_cancel_iff, Nat.pair_eq_pair] at h
    exact h.1 ▸ congrArg (a :: ·) (encodeList_injective h.2)

/-- Auxiliary: masking preserves length. -/
theorem xorStream_length (k : DerivedKey) (iv : List Nat) :
    ∀ (i : Nat) (l : List Nat), (xorStream k iv i l).length = l.length
  | _, [] => rfl
  | i, _ :: rest => by simp [xorStream, xorStream_length k iv (i + 1) rest]

/-- Auxiliary: masking twice with the same keystream is the identity. -/
theorem xorStream_xorStream (k : DerivedKey) (iv : List Nat) :
    ∀ (i : Nat) (l : List Nat), xorStream k iv i (xorStream k iv i l) = l
  | _, [] => rfl
  | i, b :: rest => by
    simp [xorStream, Nat.xor_cancel_right, xorStream_xorStream k iv (i + 1) rest]

/-- Auxiliary: the ideal tag has 16 cells. -/
theorem gcmTag_length (k : DerivedKey) (iv body : List Nat) : (gcmTag k iv body).length = 16 := by
  simp [gcmTag]

/-- Auxiliary: a ciphertext has 16 cells more than its plaintext. -/
theorem gcmEncrypt_length (k : DerivedKey) (iv pt : List Nat) :
    (gcmEncrypt k iv pt).length = pt.length + 16 := by
  simp [gcmEncrypt, xorStream_length, gcmTag_length]

/-- Auxiliary: equal ideal tags force equal key fingerprints, ivs and bodies. -/
theorem gcmTag_inj {k k' : DerivedKey} {iv iv' body body' : List Nat}
    (h : gcmTag k iv body = gcmTag k' iv' body') :
    encodeKey k = encodeKey k' ∧ iv = iv' ∧ body = body' := by
  simp only [gcmTag, List.cons.injEq, Nat.pair_eq_pair] at h
  exact ⟨h.1.1, encodeList_injective h.1.2.1, encodeList_injective h.1.2.2⟩

/-- Auxiliary: decryption of a body-plus-16-cell-tag ciphertext checks the tag over the
body and unmasks. -/
theorem gcmDecrypt_append (k : DerivedKey) (iv body tag : List Nat) (ht : tag.length = 16) :
    gcmDecrypt k iv (body ++ tag) =
      if tag = gcmTag k iv body then .ok (xorStream k iv 0 body)
      else .error .OperationError := by
  have hlen : (body ++ tag).length = body.length + 16 := by simp [ht]
  have hsub : (body ++ tag).length - 16 = body.length := by omega
  have h16 : ¬ (body ++ tag).length < 16 := by omega
  rw [gcmDecrypt, if_neg h16]
  rw [hsub, List.take_left, List.drop_left]

/-- Auxiliary: decryption inverts encryption under the same key and iv. -/
theorem gcmDecrypt_gcmEncrypt (k : DerivedKey) (iv pt : List Nat) :
    gcmDecrypt k iv (gcmEncrypt k iv pt) = .ok pt := by
  rw [gcmEncrypt, gcmDecrypt_append k iv _ _ (gcmTag_length k iv _), if_pos rfl,
    xorStream_xorStream]

/-- Auxiliary: decryption succeeds exactly on genuine ciphertexts of the same key and iv. -/
theorem gcmDecrypt_eq_ok_iff (k : DerivedKey) (iv ct pt : List Nat) :
    gcmDecrypt k iv ct = .ok pt ↔ ct = gcmEncrypt k iv pt := by
  constructor
  · intro h
    rw [gcmDecrypt] at h
    by_cases h16 : ct.length < 16
    · rw [if_pos h16] at h; exact absurd h (by simp)
    · rw [if_neg h16] at h
      by_cases htag : ct.drop (ct.length - 16) = gcmTag k iv (ct.take (ct.length - 16))
      · rw [if_pos htag] at h
        have hpt : pt = xorStream k iv 0 (ct.take (ct.length - 16)) := by
          injection h with h'; exact h'.symm
        have hbody : xorStream k iv 0 pt = ct.take (ct.length - 16) := by
          rw [hpt, xorStream_xorStream]
        calc ct = ct.take (ct.length - 16) ++ ct.drop (ct.length - 16) :=
              (List.take_append_drop _ ct).symm
          _ = gcmEncrypt k iv pt := by rw [htag, gcmEncrypt, hbody]
      · rw [if_neg htag] at h; exact absurd h (by simp)
  · intro h; rw [h]; exact gcmDecrypt_gcmEncrypt k iv pt

/-- Auxiliary: a decryption that does not succeed rejects with OperationError. -/
theorem gcmDecrypt_error (k : DerivedKey) (iv ct : List Nat)
    (h : ∀ pt, ct ≠ gcmEncrypt k iv pt) :
    gcmDecrypt k iv ct = .error .OperationError := by
  cases hres : gcmDecrypt k iv ct with
  | ok pt => exact absurd ((gcmDecrypt_eq_ok_iff k iv ct pt).mp hres) (h pt)
  | error e => cases e; rfl

/-- Auxiliary: flipping one bit of a natural changes it. -/
theorem xor_two_pow_ne (x b : Nat) : x ^^^ 2 ^ b ≠ x := by
  intro h
  have := congrArg (fun y => y.testBit b) h
  simp [Nat.testBit_xor, Nat.testBit_two_pow_self] at this

/-- Auxiliary: a bit flip at a position inside the list changes the list. -/
theorem flipBit_ne {l : List Nat} {j b : Nat} (hj : j < l.length) : flipBit l j b ≠ l := by
  intro h
  have hd : l.getD j 0 = l[j] := List.getD_eq_getElem l 0 hj
  have hget : (flipBit l j b)[j]? = some (l[j] ^^^ 2 ^ b) := by
    rw [flipBit, hd]; exact List.getElem?_set_eq_of_lt _ hj
  rw [h, List.getElem?_eq_getElem hj, Option.some_inj] at hget
  exact xor_two_pow_ne l[j] b hget.symm

/-- Auxiliary: bit flips preserve length. -/
theorem flipBit_length (l : List Nat) (j b : Nat) : (flipBit l j b).length = l.length := by
  simp [flipBit]

/-- Auxiliary: a bit flip inside the left part of an append acts on the left part. -/
theorem flipBit_append_left (u v : List Nat) (j b : Nat) (h : j < u.length) :
    flipBit (u ++ v) j b = flipBit u j b ++ v := by
  unfold flipBit
  rw [List.getD_eq_getElem?_getD, List.getElem?_append_left h,
    ← List.getD_eq_getElem?_getD u j 0, List.set_append_left j _ h]

/-- Auxiliary: a bit flip beyond the left part of an append acts on the right part. -/
theorem flipBit_append_right (u v : List Nat) (j b : Nat) (h : u.length ≤ j) :
    flipBit (u ++ v) j b = u ++ flipBit v (j - u.length) b := by
  unfold flipBit
  rw [List.getD_eq_getElem?_getD, List.getElem?_append_right h,
    ← List.getD_eq_getElem?_getD v _ 0, List.set_append_right j _ h]

/-- Auxiliary: lead-byte class of a UTF-8 byte, determining the sequence length. -/
def utf8Class (b : Nat) : Nat :=
  if b < 128 then 1 else if b < 192 then 0 else if b < 224 then 2 else if b < 240 then 3 else 4

/-- Auxiliary: every code point is below 0x110000. -/
theorem char_toNat_lt (c : Char) : c.toNat < 1114112 := by
  rcases c.valid with h | ⟨_, h2⟩
  · exact Nat.lt_trans h (by norm_num)
  · exact h2

/-- Auxiliary: characters with equal code points are equal. -/
theorem char_eq_of_toNat_eq {c d : Char} (h : c.toNat = d.toNat) : c = d := by
  apply Char.eq_of_val_eq
  apply UInt32.eq_of_toBitVec_eq
  apply BitVec.eq_of_toNat_eq
  exact h

/-- Auxiliary: the UTF-8 encoding of a character is never empty. -/
theorem utf8EncodeChar_ne_nil (c : Char) : utf8EncodeChar c ≠ [] := by
  unfold utf8EncodeChar
  split_ifs <;> simp

/-- Auxiliary: the length of a character's UTF-8 encoding is determined by its first
byte. -/
theorem utf8EncodeChar_length_class (c : Char) (b : Nat) (t : List Nat)
    (hbt : utf8EncodeChar c = b :: t) : (utf8EncodeChar c).length = utf8Class b := by
  have hn := char_toNat_lt c
  rw [hbt]
  unfold utf8EncodeChar at hbt
  unfold utf8Class
  split_ifs at hbt with h1 h2 h3 <;>
    simp only [List.cons.injEq] at hbt <;>
    obtain ⟨rfl, rfl⟩ := hbt <;>
    split_ifs <;> simp_all <;> omega

/-- Auxiliary: UTF-8 encoding of characters is injective. -/
theorem utf8EncodeChar_inj {c d : Char} (h : utf8EncodeChar c = utf8EncodeChar d) : c = d := by
  have hc := char_toNat_lt c
  have hd := char_toNat_lt d
  apply char_eq_of_toNat_eq
  unfold utf8EncodeChar at h
  split_ifs at h <;> simp only [List.cons.injEq, List.nil_eq, List.cons_ne_nil] at h <;>
    omega

/-- Auxiliary: UTF-8 encoding of character lists is injective (the code is prefix-free:
the first byte of each character determines its width). -/
theorem utf8EncodeList_inj : ∀ {l₁ l₂ : List Char},
    utf8EncodeList l₁ = utf8EncodeList l₂ → l₁ = l₂
  | [], [], _ => rfl
  | [], c :: _, h => by
    rw [utf8EncodeList, utf8EncodeList] at h
    exact absurd (List.append_eq_nil.mp h.symm).1 (utf8EncodeChar_ne_nil c)
  | c :: _, [], h => by
    rw [utf8EncodeList, utf8EncodeList] at h
    exact absurd (List.append_eq_nil.mp h).1 (utf8EncodeChar_ne_nil c)
  | c :: cs, d :: ds, h => by
    rw [utf8EncodeList, utf8EncodeList] at h
    obtain ⟨b, t, hbt⟩ : ∃ b t, utf8EncodeChar c = b :: t := by
      cases hc : utf8EncodeChar c with
      | nil => exact absurd hc (utf8EncodeChar_ne_nil c)
      | cons b t => exact ⟨b, t, rfl⟩
    obtain ⟨b', t', hbt'⟩ : ∃ b t, utf8EncodeChar d = b :: t := by
      cases hc : utf8EncodeChar d with
      | nil => exact absurd hc (utf8EncodeChar_ne_nil d)
      | cons b t => exact ⟨b, t, rfl⟩
    have hhead : b = b' := by
      rw [hbt, hbt'] at h
      simpa using congrArg (fun l => l.headI) h
    have hlen : (utf8EncodeChar c).length = (utf8EncodeChar d).length := by
      rw [utf8EncodeChar_length_class c b t hbt, utf8EncodeChar_length_class d b' t' hbt', hhead]
    obtain ⟨h1, h2⟩ := List.append_inj h hlen
    rw [utf8EncodeChar_inj h1, utf8EncodeList_inj h2]

/-- Auxiliary: UTF-8 encoding of strings is injective. -/
theorem utf8Encode_injective {s t : String} (h : utf8Encode s = utf8Encode t) : s = t :=
  String.ext (utf8EncodeList_inj h)

/-- Auxiliary: a string of positive JavaScript length is non-empty. -/
theorem ne_empty_of_jsLength {s : String} (h : 1 ≤ jsLength s) : s ≠ "" := by
  intro he
  subst he
  exact absurd h (by decide)

/-- Auxiliary: for a truthy password the production key derivation succeeds and yields
the same derived key as the simple worker (identical parameters). -/
theorem ProdWorker.deriveKeyE_eq {W : String} (s : List Nat) (h : W ≠ "") :
    ProdWorker.deriveKeyE W s = .ok (SimpleWorker.deriveKey W s) := by
  simp [ProdWorker.deriveKeyE, SimpleWorker.deriveKey, h, ProdWorker.PBKDF2_ITERATIONS]

/-- Auxiliary: key fingerprints agree exactly when password bytes and salt agree. -/
theorem encodeKey_deriveKey_eq_iff {p p' : String} {s s' : List Nat} :
    encodeKey (SimpleWorker.deriveKey p s) = encodeKey (SimpleWorker.deriveKey p' s')
      ↔ utf8Encode p = utf8Encode p' ∧ s = s' := by
  constructor
  · intro h
    simp only [encodeKey, SimpleWorker.deriveKey, Nat.pair_eq_pair] at h
    exact ⟨encodeList_injective h.1, encodeList_injective h.2⟩
  · rintro ⟨h1, h2⟩
    simp [encodeKey, SimpleWorker.deriveKey, h1, h2]

/-- C1: for every plaintext P of length between 1 and the configured maximum and every
password W of length at least 6, encryptImage succeeds and decryptImage applied to the
produced payload with the same password returns exactly P, in both worker variants. -/
theorem roundtrip_decrypt_encrypt (P : List Nat) (W : String) (salt iv : List Nat) (now : Nat)
    (_hP1 : 1 ≤ P.length) (_hP2 : P.length ≤ 50 * 1024 * 1024) (hW : 6 ≤ jsLength W)
    (_hs : salt.length = 16) (_hiv : iv.length = 12) :
    (SimpleWorker.encryptImage P W salt iv).1 = .ok (SimpleWorker.encPayload P W salt iv)
    ∧ (SimpleWorker.decryptImage (payloadInput (SimpleWorker.encPayload P W salt iv)) W).1
        = .ok P
    ∧ (ProdWorker.encryptImage P W salt iv now).1 = .ok (ProdWorker.encPayload P W salt iv now)
    ∧ (ProdWorker.decryptImage (payloadInput (ProdWorker.encPayload P W salt iv now)) W).1
        = .ok P := by
  have hWne : W ≠ "" := ne_empty_of_jsLength (by omega)
  refine ⟨?_, ?_, ?_, ?_⟩
  · simp [SimpleWorker.encryptImage, hWne]
  · simp [SimpleWorker.decryptImage, payloadInput, SimpleWorker.encPayload, hWne,
      gcmDecrypt_gcmEncrypt]
  · simp [ProdWorker.encryptImage, hWne, ProdWorker.deriveKeyE_eq _ hWne]
  · simp [ProdWorker.decryptImage, payloadInput, ProdWorker.encPayload, hWne,
      ProdWorker.deriveKeyE_eq _ hWne, gcmDecrypt_gcmEncrypt]

/-- Witness for C1 at a concrete PNG-header plaintext, password "secret1" and concrete
random draws. -/
theorem roundtrip_decrypt_encrypt_witness :
    1 ≤ ([137, 80, 78, 71] : List Nat).length
    ∧ ([137, 80, 78, 71] : List Nat).length ≤ 50 * 1024 * 1024
    ∧ 6 ≤ jsLength "secret1"
    ∧ (SimpleWorker.decryptImage
        (payloadInput (SimpleWorker.encPayload [137, 80, 78, 71] "secret1"
          (List.replicate 16 0) (List.replicate 12 0))) "secret1").1
        = .ok [137, 80, 78, 71] :=
  ⟨by decide, by decide, by decide,
    (roundtrip_decrypt_encrypt [137, 80, 78, 71] "secret1"
      (List.replicate 16 0) (List.replicate 12 0) 0
      (by decide) (by decide) (by decide) (by decide) (by decide)).2.1⟩

/-- C5: key derivation in both variants uses exactly PBKDF2 with SHA-256 and 250000
iterations over the UTF-8-encoded password and the salt, producing a 256-bit key bound
to AES-GCM only, non-extractable, with encrypt/decrypt usages; identical (password,
salt) pairs yield identical keys. -/
theorem deriveKey_parameters (p p' : String) (s s' : List Nat) (hp : p ≠ "") :
    (SimpleWorker.deriveKey p s).kdfName = "PBKDF2"
    ∧ (SimpleWorker.deriveKey p s).hash = "SHA-256"
    ∧ (SimpleWorker.deriveKey p s).iterations = 250000
    ∧ (SimpleWorker.deriveKey p s).algName = "AES-GCM"
    ∧ (SimpleWorker.deriveKey p s).length = 256
    ∧ (SimpleWorker.deriveKey p s).extractable = false
    ∧ (SimpleWorker.deriveKey p s).usages = ["encrypt", "decrypt"]
    ∧ (SimpleWorker.deriveKey p s).pwBytes = utf8Encode p
    ∧ (SimpleWorker.deriveKey p s).salt = s
    ∧ (p = p' → s = s' → SimpleWorker.deriveKey p s = SimpleWorker.deriveKey p' s')
    ∧ ProdWorker.deriveKeyE p s = .ok (SimpleWorker.deriveKey p s)
    ∧ (p = p' → s = s' → ProdWorker.deriveKeyE p s = ProdWorker.deriveKeyE p' s') := by
  refine ⟨rfl, rfl, rfl, rfl, rfl, rfl, rfl, rfl, rfl, ?_, ProdWorker.deriveKeyE_eq s hp, ?_⟩
  · intro h1 h2; rw [h1, h2]
  · intro h1 h2; rw [h1, h2]

/-- Witness for C5 at the password "secret1" and a concrete 16-byte salt. -/
theorem deriveKey_parameters_witness :
    "secret1" ≠ ""
    ∧ (SimpleWorker.deriveKey "secret1" (List.replicate 16 0)).iterations = 250000
    ∧ (SimpleWorker.deriveKey "secret1" (List.replicate 16 0)).extractable = false :=
  ⟨by decide,
    (deriveKey_parameters "secret1" "secret1" (List.replicate 16 0) (List.replicate 16 0)
      (by decide)).2.2.1,
    (deriveKey_parameters "secret1" "secret1" (List.replicate 16 0) (List.replicate 16 0)
      (by decide)).2.2.2.2.2.1⟩

/-- C6: a successful production encryption of an N-byte plaintext returns a payload
with the 16-byte salt, the 12-byte iv, encryptedData of exactly N + 16 cells
(ciphertext including the tag), the supplied mimeType, the version tag and the
creation timestamp. -/
theorem encrypt_postcondition (d : InData) (P : List Nat) (W : String) (m : String)
    (salt iv : List Nat) (now : Nat)
    (hd1 : d.imageData = some P) (hd2 : d.password = some W) (hm : d.mimeType = some m)
    (hm' : m ≠ "") (hW : 6 ≤ jsLength W) (hP1 : 1 ≤ P.length)
    (hP2 : P.length ≤ 50 * 1024 * 1024) (hs : salt.length = 16) (hiv : iv.length = 12) :
    ∃ pay, (ProdWorker.handleEncryption d salt iv now).1 = .ok pay
      ∧ pay.salt.length = 16 ∧ pay.iv.length = 12
      ∧ pay.encryptedData.length = P.length + 16
      ∧ pay.mimeType = some m ∧ pay.version = some "1.0.0" ∧ pay.timestamp = some now := by
  have hWne : W ≠ "" := ne_empty_of_jsLength (by omega)
  have h6 : ¬ jsLength W < ProdWorker.MIN_PASSWORD_LENGTH := by
    rw [ProdWorker.MIN_PASSWORD_LENGTH]; omega
  have hmax : ¬ P.length > ProdWorker.MAX_FILE_SIZE := by
    rw [ProdWorker.MAX_FILE_SIZE]; omega
  have h0 : ¬ P.length = 0 := by omega
  refine ⟨{ salt := salt, iv := iv,
            encryptedData := gcmEncrypt (SimpleWorker.deriveKey W salt) iv P,
            mimeType := some m, version := some "1.0.0", timestamp := some now }, ?_, ?_⟩
  · simp only [ProdWorker.handleEncryption, hd1, hd2, hm, if_neg hWne, if_neg h6,
      if_neg hmax, if_neg h0, ProdWorker.encryptImage, ProdWorker.deriveKeyE_eq _ hWne,
      ProdWorker.encPayload, jsTruthyStr]
    simp [String.isEmpty_iff, hm']
  · simp [hs, hiv, gcmEncrypt_length]

/-- Witness for C6 at a concrete request with mimeType image/png. -/
theorem encrypt_postcondition_witness :
    6 ≤ jsLength "secret1"
    ∧ ∃ pay,
        (ProdWorker.handleEncryption
          { imageData := some [1, 2, 3], password := some "secret1",
            mimeType := some "image/png" }
          (List.replicate 16 0) (List.replicate 12 0) 99).1 = .ok pay
        ∧ pay.salt.length = 16 ∧ pay.iv.length = 12
        ∧ pay.encryptedData.length = ([1, 2, 3] : List Nat).length + 16
        ∧ pay.mimeType = some "image/png" ∧ pay.version = some "1.0.0"
        ∧ pay.timestamp = some 99 :=
  ⟨by decide,
    encrypt_postcondition
      { imageData := some [1, 2, 3], password := some "secret1", mimeType := some "image/png" }
      [1, 2, 3] "secret1" "image/png" (List.replicate 16 0) (List.replicate 12 0) 99
      rfl rfl rfl (by decide) (by decide) (by decide) (by decide) (by decide) (by decide)⟩

/-- C7: every encryption request violating the invariant (password shorter than 6,
empty plaintext, plaintext over 50 MiB) is rejected by the production handler with an
error and no cryptographic call; the short-password case yields the weak-password
message, and the simple worker's boundary also rejects short passwords before any
cryptographic call. -/
theorem encrypt_precondition (d : InData) (P : List Nat) (W : String)
    (salt iv : List Nat) (now : Nat)
    (hd1 : d.imageData = some P) (hd2 : d.password = some W)
    (hviol : jsLength W < 6 ∨ P.length = 0 ∨ P.length > 50 * 1024 * 1024) :
    ((ProdWorker.handleEncryption d salt iv now).2 = []
      ∧ ∃ e, (ProdWorker.handleEncryption d salt iv now).1 = .error e)
    ∧ (jsLength W < 6 → W ≠ "" →
        (ProdWorker.handleEncryption d salt iv now).1 =
          .error "Error en encriptación: Contraseña debe tener al menos 6 caracteres")
    ∧ (jsLength W < 6 →
        SimpleWorker.onmessage salt iv (some { action := some "encrypt", data := some d }) =
          ([errOut "Datos o contraseña inválidos para encriptar"], [])) := by
  refine ⟨?_, ?_, ?_⟩
  · by_cases hW0 : W = ""
    · simp [ProdWorker.handleEncryption, hd1, hd2, hW0]
    · by_cases h6 : jsLength W < ProdWorker.MIN_PASSWORD_LENGTH
      · simp [ProdWorker.handleEncryption, hd1, hd2, hW0, h6]
      · by_cases hmax : P.length > ProdWorker.MAX_FILE_SIZE
        · simp [ProdWorker.handleEncryption, hd1, hd2, hW0, h6, hmax]
        · have h0 : P.length = 0 := by
            rw [ProdWorker.MIN_PASSWORD_LENGTH] at h6
            rw [ProdWorker.MAX_FILE_SIZE] at hmax
            omega
          simp [ProdWorker.handleEncryption, hd1, hd2, hW0, h6, hmax, h0]
  · intro h6 hW0
    have h6' : jsLength W < ProdWorker.MIN_PASSWORD_LENGTH := by
      rw [ProdWorker.MIN_PASSWORD_LENGTH]; omega
    simp only [ProdWorker.handleEncryption, hd1, hd2, if_neg hW0, if_pos h6']
    rfl
  · intro h6
    simp [SimpleWorker.onmessage, hd1, hd2, h6]

/-- Witness for C7 at a concrete request with the short password "abc". -/
theorem encrypt_precondition_witness :
    jsLength "abc" < 6
    ∧ (ProdWorker.handleEncryption
        { imageData := some [1, 2, 3], password := some "abc" }
        (List.replicate 16 0) (List.replicate 12 0) 0).1 =
        .error "Error en encriptación: Contraseña debe tener al menos 6 caracteres"
    ∧ (ProdWorker.handleEncryption
        { imageData := some [1, 2, 3], password := some "abc" }
        (List.replicate 16 0) (List.replicate 12 0) 0).2 = []
    ∧ SimpleWorker.onmessage (List.replicate 16 0) (List.replicate 12 0)
        (some { action := some "encrypt",
                data := some { imageData := some [1, 2, 3], password := some "abc" } }) =
        ([errOut "Datos o contraseña inválidos para encriptar"], []) :=
  ⟨by decide,
    (encrypt_precondition { imageData := some [1, 2, 3], password := some "abc" }
      [1, 2, 3] "abc" (List.replicate 16 0) (List.replicate 12 0) 0 rfl rfl
      (Or.inl (by decide))).2.1 (by decide) (by decide),
    (encrypt_precondition { imageData := some [1, 2, 3], password := some "abc" }
      [1, 2, 3] "abc" (List.replicate 16 0) (List.replicate 12 0) 0 rfl rfl
      (Or.inl (by decide))).1.1,
    (encrypt_precondition { imageData := some [1, 2, 3], password := some "abc" }
      [1, 2, 3] "abc" (List.replicate 16 0) (List.replicate 12 0) 0 rfl rfl
      (Or.inl (by decide))).2.2 (by decide)⟩

/-- Auxiliary: a non-empty string has positive JavaScript length. -/
theorem jsLength_pos {s : String} (h : s ≠ "") : 1 ≤ jsLength s := by
  cases hs : s.data with
  | nil => exact absurd (String.ext hs) h
  | cons c cs =>
    rw [jsLength, hs, jsLenAux]
    have : 1 ≤ jsCharUnits c := by rw [jsCharUnits]; split_ifs <;> omega
    omega

/-- Auxiliary: a payload that is malformed in the sense of the validation boundary
fails the production structure check. -/
theorem validate_false {payload : PayloadInput}
    (hbad : payload.salt.map List.length ≠ some 16
          ∨ payload.iv.map List.length ≠ some 12
          ∨ payload.encryptedData = none ∨ payload.encryptedData = some []) :
    ProdWorker.validateEncryptedDataStructure payload = false := by
  rcases hps : payload.salt with _ | s <;> rcases hpi : payload.iv with _ | iv <;>
    rcases hpe : payload.encryptedData with _ | ed <;>
    simp only [ProdWorker.validateEncryptedDataStructure, hps, hpi, hpe,
      ProdWorker.SALT_LENGTH, ProdWorker.IV_LENGTH] <;>
    try rfl
  rw [hps, hpi, hpe] at hbad
  simp at hbad
  rcases hbad with h | h | h <;> simp [h]

/-- C3: a decryption request whose payload is structurally malformed (salt length not
16, iv length not 12, or encryptedData empty or missing) fails with the
invalid-structure error and performs no cryptographic call. -/
theorem decrypt_validation (d : InData) (payload : PayloadInput) (pw : String)
    (hd : d.encryptedData = some payload) (hpw : d.password = some pw) (hpwne : pw ≠ "")
    (hbad : payload.salt.map List.length ≠ some 16
          ∨ payload.iv.map List.length ≠ some 12
          ∨ payload.encryptedData = none ∨ payload.encryptedData = some []) :
    ProdWorker.handleDecryption d =
      (.error "Error en desencriptación: Estructura de datos encriptados inválida", []) := by
  have hlen : ¬ jsLength pw < 1 := by have := jsLength_pos hpwne; omega
  simp [ProdWorker.handleDecryption, hd, hpw, hpwne, hlen, validate_false hbad]

/-- Witness for C3 at a concrete payload with a 15-byte salt. -/
theorem decrypt_validation_witness :
    ("x" : String) ≠ ""
    ∧ ProdWorker.handleDecryption
        { encryptedData := some { salt := some (List.replicate 15 0),
                                  iv := some (List.replicate 12 0),
                                  encryptedData := some [1, 2] },
          password := some "x" } =
        (.error "Error en desencriptación: Estructura de datos encriptados inválida", []) :=
  ⟨by decide,
    decrypt_validation
      { encryptedData := some { salt := some (List.replicate 15 0),
                                iv := some (List.replicate 12 0),
                                encryptedData := some [1, 2] },
        password := some "x" }
      { salt := some (List.replicate 15 0), iv := some (List.replicate 12 0),
        encryptedData := some [1, 2] }
      "x" rfl rfl (by decide) (Or.inl (by decide))⟩

/-- C10: in the simple worker variant every failure of decryptImage, structural or
cryptographic, surfaces as the single outward message, so all failure causes are
indistinguishable to the caller; in particular a payload missing salt, iv or
encryptedData is re-surfaced under that same message. -/
theorem decrypt_single_error (d : PayloadInput) (pw : String) :
    ((SimpleWorker.decryptImage d pw).1 = .error "Contraseña incorrecta o archivo dañado"
      ∨ ∃ b, (SimpleWorker.decryptImage d pw).1 = .ok b)
    ∧ ((d.salt = none ∨ d.iv = none ∨ d.encryptedData = none) →
        SimpleWorker.decryptImage d pw =
          (.error "Contraseña incorrecta o archivo dañado", [])) := by
  constructor
  · rcases hs : d.salt with _ | s <;> rcases hi : d.iv with _ | iv <;>
      rcases he : d.encryptedData with _ | ed <;>
      simp only [SimpleWorker.decryptImage, hs, hi, he] <;>
      try exact Or.inl trivial
    by_cases hpw : pw = ""
    · exact Or.inl (by simp [hpw])
    · cases hg : gcmDecrypt (SimpleWorker.deriveKey pw s) iv ed with
      | ok b => exact Or.inr ⟨b, by simp [hpw, hg]⟩
      | error e => exact Or.inl (by simp [hpw, hg])
  · intro hmiss
    rcases hs : d.salt with _ | s <;> rcases hi : d.iv with _ | iv <;>
      rcases he : d.encryptedData with _ | ed <;>
      simp only [SimpleWorker.decryptImage, hs, hi, he] <;> try rfl
    rw [hs, hi, he] at hmiss
    simp at hmiss

/-- Witness for C10 at a concrete payload missing its salt. -/
theorem decrypt_single_error_witness :
    SimpleWorker.decryptImage
      { iv := some (List.replicate 12 0), encryptedData := some [1, 2] } "pw" =
      (.error "Contraseña incorrecta o archivo dañado", []) :=
  (decrypt_single_error
    { iv := some (List.replicate 12 0), encryptedData := some [1, 2] } "pw").2
    (Or.inl rfl)

/-- Shape of a worker response: success carries a result and no error, failure carries
an error message and no result. -/
def wellFormedOut (m : OutMessage) : Prop :=
  (m.success = true ∧ m.result.isSome = true ∧ m.error = none)
  ∨ (m.success = false ∧ m.result = none ∧ ∃ e, m.error = some e)

/-- Auxiliary: success responses are well-formed. -/
theorem wellFormedOut_okOut (r : WorkerResult) : wellFormedOut (okOut r) :=
  Or.inl ⟨rfl, rfl, rfl⟩

/-- Auxiliary: failure responses are well-formed. -/
theorem wellFormedOut_errOut (e : String) : wellFormedOut (errOut e) :=
  Or.inr ⟨rfl, rfl, e, rfl⟩

/-- C4: each worker posts exactly one response per incoming task message, of the
success shape or the failure shape; the production worker answers every message
including a non-object one. -/
theorem exactly_once_response (salt iv : List Nat) (now : Nat) (msg : InMessage)
    (x : Option InMessage) :
    (∃ out, (SimpleWorker.onmessage salt iv (some msg)).1 = [out] ∧ wellFormedOut out)
    ∧ (∃ out, (ProdWorker.onmessage salt iv now x).1 = [out] ∧ wellFormedOut out) := by
  constructor
  · simp only [SimpleWorker.onmessage]
    repeat' split
    all_goals
      first
        | exact ⟨_, rfl, wellFormedOut_errOut _⟩
        | exact ⟨_, rfl, wellFormedOut_okOut _⟩
  · simp only [ProdWorker.onmessage]
    repeat' split
    all_goals
      first
        | exact ⟨_, rfl, wellFormedOut_errOut _⟩
        | exact ⟨_, rfl, wellFormedOut_okOut _⟩

/-- C8: the payload's salt and iv are exactly the fresh random draws of the call
(whatever the plaintext and password), so two encryptions of the same plaintext with
the same password under distinct draws yield different salt, iv and encryptedData,
while each payload still decrypts to the original plaintext with that password. -/
theorem fresh_randomness (P : List Nat) (W : String) (s1 iv1 s2 iv2 : List Nat)
    (hW : 6 ≤ jsLength W) (_hs1 : s1.length = 16) (_hiv1 : iv1.length = 12)
    (_hs2 : s2.length = 16) (_hiv2 : iv2.length = 12) (hss : s1 ≠ s2) (hivs : iv1 ≠ iv2) :
    (SimpleWorker.encPayload P W s1 iv1).salt = s1
    ∧ (SimpleWorker.encPayload P W s1 iv1).iv = iv1
    ∧ (SimpleWorker.encPayload P W s1 iv1).salt ≠ (SimpleWorker.encPayload P W s2 iv2).salt
    ∧ (SimpleWorker.encPayload P W s1 iv1).iv ≠ (SimpleWorker.encPayload P W s2 iv2).iv
    ∧ (SimpleWorker.encPayload P W s1 iv1).encryptedData
        ≠ (SimpleWorker.encPayload P W s2 iv2).encryptedData
    ∧ (SimpleWorker.decryptImage (payloadInput (SimpleWorker.encPayload P W s1 iv1)) W).1
        = .ok P
    ∧ (SimpleWorker.decryptImage (payloadInput (SimpleWorker.encPayload P W s2 iv2)) W).1
        = .ok P := by
  have hWne : W ≠ "" := ne_empty_of_jsLength (by omega)
  have key_ne : encodeKey (SimpleWorker.deriveKey W s1) ≠ encodeKey (SimpleWorker.deriveKey W s2) :=
    fun h => hss (encodeKey_deriveKey_eq_iff.mp h).2
  refine ⟨rfl, rfl, hss, hivs, ?_, ?_, ?_⟩
  · intro h
    simp only [SimpleWorker.encPayload, gcmEncrypt] at h
    have hlen : (xorStream (SimpleWorker.deriveKey W s1) iv1 0 P).length
        = (xorStream (SimpleWorker.deriveKey W s2) iv2 0 P).length := by
      rw [xorStream_length, xorStream_length]
    exact key_ne (gcmTag_inj (List.append_inj h hlen).2).1
  · simp [SimpleWorker.decryptImage, payloadInput, SimpleWorker.encPayload, hWne,
      gcmDecrypt_gcmEncrypt]
  · simp [SimpleWorker.decryptImage, payloadInput, SimpleWorker.encPayload, hWne,
      gcmDecrypt_gcmEncrypt]

/-- Witness for C8 at concrete distinct draws. -/
theorem fresh_randomness_witness :
    (List.replicate 16 0 : List Nat) ≠ 1 :: List.replicate 15 0
    ∧ (SimpleWorker.encPayload [7] "secret1" (List.replicate 16 0)
        (List.replicate 12 0)).encryptedData
      ≠ (SimpleWorker.encPayload [7] "secret1" (1 :: List.replicate 15 0)
        (1 :: List.replicate 11 0)).encryptedData
    ∧ (SimpleWorker.decryptImage
        (payloadInput (SimpleWorker.encPayload [7] "secret1" (1 :: List.replicate 15 0)
          (1 :: List.replicate 11 0))) "secret1").1 = .ok [7] :=
  ⟨by decide,
    (fresh_randomness [7] "secret1" (List.replicate 16 0) (List.replicate 12 0)
      (1 :: List.replicate 15 0) (1 :: List.replicate 11 0)
      (by decide) (by decide) (by decide) (by decide) (by decide)
      (by decide) (by decide)).2.2.2.2.1,
    (fresh_randomness [7] "secret1" (List.replicate 16 0) (List.replicate 12 0)
      (1 :: List.replicate 15 0) (1 :: List.replicate 11 0)
      (by decide) (by decide) (by decide) (by decide) (by decide)
      (by decide) (by decide)).2.2.2.2.2.2⟩

/-- Auxiliary: unfolded form of the ideal encryption. -/
theorem gcmEncrypt_def (k : DerivedKey) (iv pt : List Nat) :
    gcmEncrypt k iv pt = xorStream k iv 0 pt ++ gcmTag k iv (xorStream k iv 0 pt) := rfl

/-- Auxiliary: decryption under a different key fingerprint or different iv rejects. -/
theorem gcmDecrypt_wrong_key (k k' : DerivedKey) (iv iv' pt : List Nat)
    (hne : encodeKey k' ≠ encodeKey k ∨ iv' ≠ iv) :
    gcmDecrypt k' iv' (gcmEncrypt k iv pt) = .error .OperationError := by
  apply gcmDecrypt_error
  intro pt' h
  rw [gcmEncrypt_def, gcmEncrypt_def] at h
  have hl := congrArg List.length h
  simp only [List.length_append, xorStream_length, gcmTag_length] at hl
  have hlen : (xorStream k iv 0 pt).length = (xorStream k' iv' 0 pt').length := by
    rw [xorStream_length, xorStream_length]; omega
  obtain ⟨-, h2⟩ := List.append_inj h hlen
  obtain ⟨hk, hiv, -⟩ := gcmTag_inj h2
  rcases hne with hne | hne
  · exact hne hk.symm
  · exact hne hiv.symm

/-- Auxiliary: decryption of a ciphertext with any single bit flipped rejects, even
under the correct key and iv. -/
theorem gcmDecrypt_flip_data (k : DerivedKey) (iv pt : List Nat) (j b : Nat)
    (hj : j < (gcmEncrypt k iv pt).length) :
    gcmDecrypt k iv (flipBit (gcmEncrypt k iv pt) j b) = .error .OperationError := by
  apply gcmDecrypt_error
  intro pt' h
  rw [gcmEncrypt_def] at h
  by_cases hcase : j < (xorStream k iv 0 pt).length
  · rw [flipBit_append_left _ _ _ _ hcase, gcmEncrypt_def] at h
    have hl := congrArg List.length h
    simp only [List.length_append, xorStream_length, gcmTag_length, flipBit_length] at hl
    have hlen : (flipBit (xorStream k iv 0 pt) j b).length
        = (xorStream k iv 0 pt').length := by
      rw [flipBit_length, xorStream_length, xorStream_length]; omega
    obtain ⟨h1, h2⟩ := List.append_inj h hlen
    have hbody := (gcmTag_inj h2).2.2
    rw [← hbody] at h1
    exact flipBit_ne hcase h1
  · rw [flipBit_append_right _ _ _ _ (le_of_not_lt hcase), gcmEncrypt_def] at h
    have hl := congrArg List.length h
    simp only [List.length_append, xorStream_length, gcmTag_length, flipBit_length] at hl
    have hlen : (xorStream k iv 0 pt).length = (xorStream k iv 0 pt').length := by
      rw [xorStream_length, xorStream_length]; omega
    obtain ⟨h1, h2⟩ := List.append_inj h hlen
    rw [← h1] at h2
    have hjtag : j - (xorStream k iv 0 pt).length < (gcmTag k iv (xorStream k iv 0 pt)).length := by
      rw [gcmTag_length]
      have := gcmEncrypt_length k iv pt
      have := xorStream_length k iv 0 pt
      omega
    exact flipBit_ne hjtag h2

/-- Location of a single-bit flip in a produced payload. -/
inductive FlipLoc where
  | inSalt
  | inIv
  | inData
  deriving DecidableEq, Repr

/-- Payload with one bit flipped at the given location, cell and bit position. -/
def flipInput (p : EncryptedPayload) : FlipLoc → Nat → Nat → PayloadInput
  | .inSalt, j, b => { payloadInput p with salt := some (flipBit p.salt j b) }
  | .inIv, j, b => { payloadInput p with iv := some (flipBit p.iv j b) }
  | .inData, j, b => { payloadInput p with encryptedData := some (flipBit p.encryptedData j b) }

/-- Condition that the flipped cell lies inside the targeted field. -/
def flipInBounds (p : EncryptedPayload) : FlipLoc → Nat → Prop
  | .inSalt, j => j < p.salt.length
  | .inIv, j => j < p.iv.length
  | .inData, j => j < p.encryptedData.length

/-- C2: decrypting a produced payload with a different password, or after flipping any
single bit of its encryptedData, salt or iv, fails in both worker variants with the
one authentication-failure message - the identical outward error for the
wrong-password cause and the tampered-data cause - and never returns a plaintext. -/
theorem auth_failure_indistinguishable (P : List Nat) (W W' : String) (salt iv : List Nat)
    (l : FlipLoc) (j b : Nat)
    (hW : 6 ≤ jsLength W) (_hs : salt.length = 16) (_hiv : iv.length = 12) :
    ((W' ≠ W ∧ W' ≠ "") →
      (SimpleWorker.decryptImage (payloadInput (SimpleWorker.encPayload P W salt iv)) W').1
        = .error "Contraseña incorrecta o archivo dañado"
      ∧ (ProdWorker.decryptImage (payloadInput (SimpleWorker.encPayload P W salt iv)) W').1
        = .error "Contraseña incorrecta o archivo dañado")
    ∧ (flipInBounds (SimpleWorker.encPayload P W salt iv) l j →
      (SimpleWorker.decryptImage (flipInput (SimpleWorker.encPayload P W salt iv) l j b) W).1
        = .error "Contraseña incorrecta o archivo dañado"
      ∧ (ProdWorker.decryptImage (flipInput (SimpleWorker.encPayload P W salt iv) l j b) W).1
        = .error "Contraseña incorrecta o archivo dañado") := by
  have hWne : W ≠ "" := ne_empty_of_jsLength (by omega)
  constructor
  · rintro ⟨hne, hne'⟩
    have hkey : encodeKey (SimpleWorker.deriveKey W' salt)
        ≠ encodeKey (SimpleWorker.deriveKey W salt) := by
      intro h
      exact hne (utf8Encode_injective (encodeKey_deriveKey_eq_iff.mp h).1)
    have hfail := gcmDecrypt_wrong_key (SimpleWorker.deriveKey W salt)
      (SimpleWorker.deriveKey W' salt) iv iv P (Or.inl hkey)
    constructor
    · simp [SimpleWorker.decryptImage, payloadInput, SimpleWorker.encPayload, hne', hfail]
    · simp [ProdWorker.decryptImage, payloadInput, SimpleWorker.encPayload, hne',
        ProdWorker.deriveKeyE_eq _ hne', hfail]
  · intro hb
    cases l with
    | inSalt =>
      have hb' : j < salt.length := hb
      have hsne : flipBit salt j b ≠ salt := flipBit_ne hb'
      have hkey : encodeKey (SimpleWorker.deriveKey W (flipBit salt j b))
          ≠ encodeKey (SimpleWorker.deriveKey W salt) := by
        intro h
        exact hsne (encodeKey_deriveKey_eq_iff.mp h).2
      have hfail := gcmDecrypt_wrong_key (SimpleWorker.deriveKey W salt)
        (SimpleWorker.deriveKey W (flipBit salt j b)) iv iv P (Or.inl hkey)
      constructor
      · simp [SimpleWorker.decryptImage, flipInput, payloadInput, SimpleWorker.encPayload,
          hWne, hfail]
      · simp [ProdWorker.decryptImage, flipInput, payloadInput, SimpleWorker.encPayload,
          hWne, ProdWorker.deriveKeyE_eq _ hWne, hfail]
    | inIv =>
      have hb' : j < iv.length := hb
      have hivne : flipBit iv j b ≠ iv := flipBit_ne hb'
      have hfail := gcmDecrypt_wrong_key (SimpleWorker.deriveKey W salt)
        (SimpleWorker.deriveKey W salt) iv (flipBit iv j b) P (Or.inr hivne)
      constructor
      · simp [SimpleWorker.decryptImage, flipInput, payloadInput, SimpleWorker.encPayload,
          hWne, hfail]
      · simp [ProdWorker.decryptImage, flipInput, payloadInput, SimpleWorker.encPayload,
          hWne, ProdWorker.deriveKeyE_eq _ hWne, hfail]
    | inData =>
      have hb' : j < (gcmEncrypt (SimpleWorker.deriveKey W salt) iv P).length := hb
      have hfail := gcmDecrypt_flip_data (SimpleWorker.deriveKey W salt) iv P j b hb'
      constructor
      · simp [SimpleWorker.decryptImage, flipInput, payloadInput, SimpleWorker.encPayload,
          hWne, hfail]
      · simp [ProdWorker.decryptImage, flipInput, payloadInput, SimpleWorker.encPayload,
          hWne, ProdWorker.deriveKeyE_eq _ hWne, hfail]

/-- Witness for C2 at a concrete payload, the wrong password "wrong99" and a concrete
bit flip in the ciphertext. -/
theorem auth_failure_indistinguishable_witness :
    (SimpleWorker.decryptImage
      (payloadInput (SimpleWorker.encPayload [7] "secret1"
        (List.replicate 16 0) (List.replicate 12 0))) "wrong99").1
      = .error "Contraseña incorrecta o archivo dañado"
    ∧ (SimpleWorker.decryptImage
      (flipInput (SimpleWorker.encPayload [7] "secret1"
        (List.replicate 16 0) (List.replicate 12 0)) .inData 0 0) "secret1").1
      = .error "Contraseña incorrecta o archivo dañado" :=
  ⟨((auth_failure_indistinguishable [7] "secret1" "wrong99"
      (List.replicate 16 0) (List.replicate 12 0) .inData 0 0
      (by decide) (by decide) (by decide)).1 ⟨by decide, by decide⟩).1,
    ((auth_failure_indistinguishable [7] "secret1" "wrong99"
      (List.replicate 16 0) (List.replicate 12 0) .inData 0 0
      (by decide) (by decide) (by decide)).2
      (by simp [flipInBounds, SimpleWorker.encPayload, gcmEncrypt_length])).1⟩

/-- Extraction of the mimeType of the payload carried by a single successful response. -/
def firstResultMimeType (l : List OutMessage) : Option (Option String) :=
  match l with
  | [m] =>
    match m.result with
    | some (.payload p) => some p.mimeType
    | _ => none
  | _ => none

/-- Counterexample for C9: a request that supplies the empty string as its mimeType.
The claim says a supplied mimeType is copied verbatim onto the result, which here
would be the mimeType cell holding the empty string; the boundary's truthiness test
drops it instead and the result carries no mimeType field. -/
theorem mimeType_copy_cex :
    firstResultMimeType (SimpleWorker.onmessage (List.replicate 16 0) (List.replicate 12 0)
      (some { action := some "encrypt",
              data := some { imageData := some [1], password := some "secret1",
                             mimeType := some "" } })).1 = some none
    ∧ firstResultMimeType (SimpleWorker.onmessage (List.replicate 16 0) (List.replicate 12 0)
      (some { action := some "encrypt",
              data := some { imageData := some [1], password := some "secret1",
                             mimeType := some "" } })).1 ≠ some (some "") := by
  constructor
  · rfl
  · intro h
    rw [show firstResultMimeType (SimpleWorker.onmessage (List.replicate 16 0)
        (List.replicate 12 0)
        (some { action := some "encrypt",
                data := some { imageData := some [1], password := some "secret1",
                               mimeType := some "" } })).1 = some none from rfl] at h
    simp at h

/-- C9 (amended): the mimeType of an encryption request never influences salt, iv or
encryptedData of the result (encryption never receives it); the boundary copies a
supplied non-empty mimeType verbatim onto the result, and when the mimeType is absent
or the empty string the result carries no mimeType field. -/
theorem mimeType_frame_amended (P : List Nat) (W : String) (salt iv : List Nat)
    (mo : Option String) (hW : 6 ≤ jsLength W) :
    (SimpleWorker.onmessage salt iv
        (some { action := some "encrypt",
                data := some { imageData := some P, password := some W,
                               mimeType := mo } })).1
      = [okOut (.payload { SimpleWorker.encPayload P W salt iv with
          mimeType := (match mo with
            | some m => if m = "" then none else some m
            | none => none) })] := by
  have hWne : W ≠ "" := ne_empty_of_jsLength (by omega)
  have h6 : ¬ jsLength W < 6 := by omega
  rcases mo with _ | m
  · simp [SimpleWorker.onmessage, h6, SimpleWorker.encryptImage, hWne, jsTruthyStr,
      SimpleWorker.encPayload]
  · by_cases hm : m = ""
    · subst hm
      simp [SimpleWorker.onmessage, h6, SimpleWorker.encryptImage, hWne, jsTruthyStr,
        SimpleWorker.encPayload, show ("" : String).isEmpty = true from rfl]
    · have hie : m.isEmpty = false := by
        rw [← Bool.not_eq_true, String.isEmpty_iff]
        exact hm
      simp [SimpleWorker.onmessage, h6, SimpleWorker.encryptImage, hWne, jsTruthyStr,
        hie, hm, SimpleWorker.encPayload]

/-- Witness for the amended C9 at a concrete request with mimeType image/png. -/
theorem mimeType_frame_amended_witness :
    6 ≤ jsLength "secret1"
    ∧ (SimpleWorker.onmessage (List.replicate 16 0) (List.replicate 12 0)
        (some { action := some "encrypt",
                data := some { imageData := some [1], password := some "secret1",
                               mimeType := some "image/png" } })).1
      = [okOut (.payload { SimpleWorker.encPayload [1] "secret1"
          (List.replicate 16 0) (List.replicate 12 0) with mimeType := some "image/png" })] := by
  refine ⟨by decide, ?_⟩
  have h := mimeType_frame_amended [1] "secret1" (List.replicate 16 0) (List.replicate 12 0)
    (some "image/png") (by decide)
  simpa using h
